import Mathlib

/-
  Shallow embedding of src/libakumuli/ingestion_engine/ingestion_engine.cpp
  (namespaces Akumuli::Ingress), the ingestion registry and session layer of
  the Akumuli time-series storage engine.

  Modelling conventions:
  * Machine integers (u64 ids, i64 timestamps) are Nat / Int; no arithmetic
    overflows in the modelled code paths.
  * The f64 sample value is carried opaquely as an Int; the engine never
    computes with it, it only stores it.
  * Mutexes serialise the operations, so each public operation (or, where a
    race window exists between two lock regions inside one operation, each
    lock region) is one atomic step on a global state value.
  * shared_ptr reference counting on a registry entry is reflected by which
    session caches currently hold the id: roots_.unique() holds exactly when
    no session cache contains the id.
  * The extent list (NBTreeExtentsList), the series matcher and the metadata
    store are code of the repository that is not under src/; they are
    modelled from the spec where a claim needs them (see the doc comments).
  * Dereferencing an invalid iterator (cache_.end()) is undefined behaviour
    in C++; the model returns the distinguished result WriteResult.crash.
-/

/-- Status codes aku_Status used by the engine (AKU_SUCCESS and friends). -/
inductive AkuStatus where
  | success
  | ebusy
  | enotFound
  | etimeout
  | eretry
  | eclosed
  | ebadArg
  | elateWrite
  deriving DecidableEq

/-- Result of NBTreeExtentsList::append, from the storage engine. -/
inductive NBTreeAppendResult where
  | ok
  | okFlushNeeded
  | failLateWrite
  | failBadId
  deriving DecidableEq

/-- Payload kind of a sample; the engine accepts only AKU_PAYLOAD_FLOAT. -/
inductive PayloadType where
  | float
  | event
  deriving DecidableEq

/-- aku_Sample: id, timestamp and a float payload (value carried opaquely). -/
structure Sample where
  paramid : Nat
  timestamp : Int
  payloadType : PayloadType
  float64 : Int
  deriving DecidableEq

/-- Modelled from the spec: the extent list NBTreeExtentsList is an external
collaborator (its sources are not under src/).  Per spec section 3 it exposes
append, whose outcome may depend on the current contents (for instance a late
write), and get_roots, which reports the current root block addresses.  Both
are kept parametric; each theorem fixes them or quantifies over them. -/
structure ExtBehavior where
  appendRes : Nat → List (Int × Int) → Int → Int → NBTreeAppendResult
  getRoots : Nat → List (Int × Int) → List Nat

/-- Association-list lookup over Nat keys (models map find). -/
def alGet {α : Type} (l : List (Nat × α)) (k : Nat) : Option α :=
  (l.find? fun p => p.1 == k).map Prod.snd

/-- Association-list update over Nat keys (models map operator[] assignment). -/
def alSet {α : Type} (l : List (Nat × α)) (k : Nat) (v : α) : List (Nat × α) :=
  (k, v) :: l.filter fun p => p.1 != k

/-- Upsert of an association map into another: keys of upd take their value
from upd, other keys keep the base value.  Modelled from the spec: the
metadata store upsert_rescue_points inserts or updates each id. -/
def alUpsert {α : Type} (base upd : List (Nat × α)) : List (Nat × α) :=
  upd ++ base.filter fun p => (alGet upd p.1).isNone

/-- Modelled from the spec: SeriesMatcher (series_parser, not under src/).
Per spec section 3 it is a bidirectional canonical-name to id catalog that
monotonically grows; ids are nonzero, unique and never reused; match returns 0
when the name is unknown; newly added pairs are buffered until pulled by the
metadata sync.  Names are byte sequences, modelled as List Nat. -/
structure SeriesMatcher where
  table : List (List Nat × Nat)
  nextId : Nat
  newNames : List (List Nat × Nat)
  deriving DecidableEq

/-- SeriesMatcher::match — first table entry with this name, or 0. -/
def SeriesMatcher.matchName (m : SeriesMatcher) (n : List Nat) : Nat :=
  ((m.table.find? fun p => p.1 == n).map Prod.snd).getD 0

/-- SeriesMatcher::add — register a fresh id for a name and buffer it. -/
def SeriesMatcher.add (m : SeriesMatcher) (n : List Nat) : Nat × SeriesMatcher :=
  (m.nextId,
   { table := (n, m.nextId) :: m.table
     nextId := m.nextId + 1
     newNames := (n, m.nextId) :: m.newNames })

/-- SeriesMatcher::_add — mirror a known (name, id) pair into a matcher
without allocating or buffering (used on session-local matchers). -/
def SeriesMatcher.addMapping (m : SeriesMatcher) (n : List Nat) (id : Nat) : SeriesMatcher :=
  { m with table := (n, id) :: m.table }

/-- SeriesMatcher::id2str — the name stored for an id, if any. -/
def SeriesMatcher.id2str (m : SeriesMatcher) (id : Nat) : Option (List Nat) :=
  (m.table.find? fun p => p.2 == id).map Prod.fst

/-- SeriesMatcher::pull_new_names — drain the buffer of new pairs. -/
def SeriesMatcher.pullNewNames (m : SeriesMatcher) :
    List (List Nat × Nat) × SeriesMatcher :=
  (m.newNames, { m with newNames := [] })

/-- The matcher with no names (initial global or session-local matcher). -/
def SeriesMatcher.empty : SeriesMatcher :=
  { table := [], nextId := 1, newNames := [] }

/-- Well-formedness of a matcher state: the next id is positive, stored ids
are positive and below the next id, and names and ids are duplicate-free.
Every matcher reachable by the modelled operations satisfies this. -/
def MatcherInv (m : SeriesMatcher) : Prop :=
  0 < m.nextId ∧
  (∀ p ∈ m.table, 0 < p.2 ∧ p.2 < m.nextId) ∧
  (m.table.map Prod.fst).Nodup ∧
  (m.table.map Prod.snd).Nodup

instance (m : SeriesMatcher) : Decidable (MatcherInv m) := by
  unfold MatcherInv
  infer_instance

/-- Modelled from the spec: the metadata store (not under src/) keeps the
durable catalog of names and the per-id rescue points. -/
structure MetadataStorage where
  names : List (List Nat × Nat)
  rescuePoints : List (Nat × List Nat)
  deriving DecidableEq

/-- Per-session state of IngestionSession: the local name matcher
local_matcher_ and the cache cache_ of owned extent-list handles (the handle
for an id is identified by the id, so the cache is the list of owned ids). -/
structure SessionState where
  localMatcher : SeriesMatcher
  cache : List Nat
  deriving DecidableEq

/-- Global state: the TreeRegistry together with all live sessions and the
shared extent lists.  trees maps each id to the contents of its extent list;
the contents live outside the registry record so that a session holding a
handle can still append after the registry is torn down (regAlive = false).
table_ is the set of ids that have a RegistryEntry; active_ is the keyed list
of live sessions (weak references that still lock successfully). -/
structure SysState where
  regAlive : Bool
  globalMatcher : SeriesMatcher
  table : List Nat
  rescuePoints : List (Nat × List Nat)
  trees : List (Nat × List (Int × Int))
  sessions : List (Nat × SessionState)
  meta : MetadataStorage
  deriving DecidableEq

/-- NBTreeExtentsList::append on the tree of one id: ask the external
behaviour for the outcome; on OK or OK_FLUSH_NEEDED the sample is recorded,
on a failure outcome the contents are unchanged. -/
def treeAppend (E : ExtBehavior) (trees : List (Nat × List (Int × Int)))
    (id : Nat) (ts v : Int) : NBTreeAppendResult × List (Nat × List (Int × Int)) :=
  let cur := (alGet trees id).getD []
  let res := E.appendRes id cur ts v
  match res with
  | NBTreeAppendResult.ok => (res, alSet trees id (cur ++ [(ts, v)]))
  | NBTreeAppendResult.okFlushNeeded => (res, alSet trees id (cur ++ [(ts, v)]))
  | _ => (res, trees)

/-- The sessions currently holding the handle of an id in their cache.
roots_.unique() in RegistryEntry holds exactly when this list is empty. -/
def holders (ss : List (Nat × SessionState)) (id : Nat) : List Nat :=
  (ss.filter fun p => p.2.cache.contains id).map Prod.fst

/-- TreeRegistry::try_acquire (lines 156-163) composed with
RegistryEntry::try_acquire (lines 29-35): unknown id gives ENOT_FOUND; an
available entry (no strong reference besides the registry's own, that is no
session cache holds the id) is granted with SUCCESS; otherwise EBUSY and no
handle.  The Bool reports whether a handle was returned. -/
def regTryAcquire (s : SysState) (id : Nat) : AkuStatus × Bool :=
  if s.table.contains id then
    if (holders s.sessions id).isEmpty then (AkuStatus.success, true)
    else (AkuStatus.ebusy, false)
  else (AkuStatus.enotFound, false)

/-- Apply a function to the state of the session with the given key. -/
def updSession (ss : List (Nat × SessionState)) (sid : Nat)
    (f : SessionState → SessionState) : List (Nat × SessionState) :=
  ss.map fun p => if p.1 = sid then (p.1, f p.2) else p

/-- IngestionSession::_receive_broadcast (lines 288-298): under the session
lock, if the id is cached perform the append and report (true, outcome),
otherwise report (false, OK) without touching anything. -/
def receiveBroadcast (E : ExtBehavior) (st : SessionState)
    (trees : List (Nat × List (Int × Int))) (smp : Sample) :
    (Bool × NBTreeAppendResult) × List (Nat × List (Int × Int)) :=
  if st.cache.contains smp.paramid then
    let r := treeAppend E trees smp.paramid smp.timestamp smp.float64
    ((true, r.1), r.2)
  else ((false, NBTreeAppendResult.ok), trees)

/-- Loop body of TreeRegistry::broadcast_sample (lines 136-154): walk the
live sessions, skip the source, offer the sample; stop at the first session
that handles it; FAIL_BAD_ID when nobody does. -/
def broadcastLoop (E : ExtBehavior) (smp : Sample) (src : Nat) :
    List (Nat × SessionState) → List (Nat × List (Int × Int)) →
    NBTreeAppendResult × List (Nat × List (Int × Int))
  | [], trees => (NBTreeAppendResult.failBadId, trees)
  | p :: rest, trees =>
    if p.1 == src then broadcastLoop E smp src rest trees
    else
      let r := receiveBroadcast E p.2 trees smp
      if r.1.1 then (r.1.2, r.2) else broadcastLoop E smp src rest r.2

/-- TreeRegistry::broadcast_sample as a step on the global state. -/
def broadcastSample (E : ExtBehavior) (s : SysState) (smp : Sample) (src : Nat) :
    NBTreeAppendResult × SysState :=
  let r := broadcastLoop E smp src s.sessions s.trees
  (r.1, { s with trees := r.2 })

/-- Result of IngestionSession::write: a returned status, or crash for the
undefined behaviour of reading through an invalid iterator. -/
inductive WriteResult where
  | ret (st : AkuStatus)
  | crash
  deriving DecidableEq

/-- Intermediate state of one IngestionSession::write call: the status local,
whether the initial cache_.find(id) at line 243 found the id (the iterator it
is captured once and never refreshed), the append result so far, and whether
the EBUSY fallback still has to run broadcast_sample. -/
structure WriteCtx where
  status : AkuStatus
  itFound : Bool
  res : NBTreeAppendResult
  needBroadcast : Bool
  deriving DecidableEq

/-- First lock region of IngestionSession::write (lines 242-262): look up the
id in cache_; on a hit append directly; on a miss lock the registry and run
try_acquire — SUCCESS installs the handle in cache_ and appends, EBUSY resets
the status to SUCCESS and defers to broadcast, ENOT_FOUND falls through, and
a dead registry gives ECLOSED. -/
def writeTryPhase (E : ExtBehavior) (s : SysState) (sid : Nat) (smp : Sample) :
    WriteCtx × SysState :=
  let id := smp.paramid
  match alGet s.sessions sid with
  | none => (⟨AkuStatus.ebadArg, false, NBTreeAppendResult.ok, false⟩, s)
  | some st =>
    if st.cache.contains id then
      let r := treeAppend E s.trees id smp.timestamp smp.float64
      (⟨AkuStatus.success, true, r.1, false⟩, { s with trees := r.2 })
    else
      if s.regAlive then
        match regTryAcquire s id with
        | (AkuStatus.success, _) =>
          let ss1 := updSession s.sessions sid fun t => { t with cache := id :: t.cache }
          let s1 := { s with sessions := ss1 }
          let r := treeAppend E s1.trees id smp.timestamp smp.float64
          (⟨AkuStatus.success, false, r.1, false⟩, { s1 with trees := r.2 })
        | (AkuStatus.ebusy, _) =>
          (⟨AkuStatus.success, false, NBTreeAppendResult.ok, true⟩, s)
        | (st0, _) =>
          (⟨st0, false, NBTreeAppendResult.ok, false⟩, s)
      else
        (⟨AkuStatus.eclosed, false, NBTreeAppendResult.ok, false⟩, s)

/-- Broadcast stage of IngestionSession::write (line 255): when the try phase
ended in EBUSY, run broadcast_sample and take its outcome as the append
result.  The registry is kept alive across the phase by the strong reference
reg obtained at line 246. -/
def writeBroadcastPhase (E : ExtBehavior) (s : SysState) (sid : Nat) (smp : Sample)
    (c : WriteCtx) : WriteCtx × SysState :=
  if c.needBroadcast then
    let r := broadcastSample E s smp sid
    (⟨c.status, c.itFound, r.1, false⟩, r.2)
  else (c, s)

/-- Outcome interpretation of IngestionSession::write (lines 263-285): on
OK_FLUSH_NEEDED the code reads it->second->get_roots() through the iterator
captured at line 243; when that find had failed (it == cache_.end()) the read
is undefined behaviour, modelled as crash.  Otherwise the roots are handed to
update_rescue_points when the registry is still alive, else ECLOSED. -/
def writeInterpret (E : ExtBehavior) (s : SysState) (id : Nat) (c : WriteCtx) :
    WriteResult × SysState :=
  if c.status = AkuStatus.success then
    match c.res with
    | NBTreeAppendResult.ok => (WriteResult.ret AkuStatus.success, s)
    | NBTreeAppendResult.okFlushNeeded =>
      if c.itFound then
        let roots := E.getRoots id ((alGet s.trees id).getD [])
        if s.regAlive then
          (WriteResult.ret AkuStatus.success,
           { s with rescuePoints := alSet s.rescuePoints id roots })
        else (WriteResult.ret AkuStatus.eclosed, s)
      else (WriteResult.crash, s)
    | NBTreeAppendResult.failLateWrite => (WriteResult.ret AkuStatus.elateWrite, s)
    | NBTreeAppendResult.failBadId => (WriteResult.ret AkuStatus.enotFound, s)
  else (WriteResult.ret c.status, s)

/-- IngestionSession::write (lines 232-286): the payload check followed by
the three stages above run back to back. -/
def write (E : ExtBehavior) (s : SysState) (sid : Nat) (smp : Sample) :
    WriteResult × SysState :=
  if smp.payloadType ≠ PayloadType.float then (WriteResult.ret AkuStatus.ebadArg, s)
  else
    let p1 := writeTryPhase E s sid smp
    let p2 := writeBroadcastPhase E p1.2 sid smp p1.1
    writeInterpret E p2.2 smp.paramid p2.1

/-- IngestionSession::close plus destruction (lines 114-118, 177-182): the
session is removed from active_ and its cache of handles is dropped,
releasing the single-writer tokens. -/
def closeSession (s : SysState) (sid : Nat) : SysState :=
  { s with sessions := s.sessions.filter fun p => p.1 != sid }

/-- Direct call of _receive_broadcast on one session (outside a broadcast). -/
def sessionReceive (E : ExtBehavior) (s : SysState) (sid : Nat) (smp : Sample) :
    (Bool × NBTreeAppendResult) × SysState :=
  match alGet s.sessions sid with
  | none => ((false, NBTreeAppendResult.ok), s)
  | some st =>
    let r := receiveBroadcast E st s.trees smp
    (r.1, { s with trees := r.2 })

/-- TreeRegistry::init_series_id (lines 73-96) for a canonical name: match in
the global catalog; when unknown, add a fresh id, create an empty extent list
and a registry entry for it, buffer an empty rescue-point list and signal the
sync waiter; in both cases mirror the pair into the calling session's local
matcher.  Returns the id (the C++ also stores it into sample->paramid and
returns AKU_SUCCESS unconditionally). -/
def regInitSeriesId (s : SysState) (name : List Nat) (sid : Nat) : Nat × SysState :=
  let id0 := s.globalMatcher.matchName name
  if id0 = 0 then
    let (id, m2) := s.globalMatcher.add name
    let s2 := { s with
      globalMatcher := m2,
      table := id :: s.table,
      trees := alSet s.trees id [],
      rescuePoints := alSet s.rescuePoints id [] }
    (id, { s2 with sessions := updSession s2.sessions sid fun t =>
            { t with localMatcher := t.localMatcher.addMapping name id } })
  else
    (id0, { s with sessions := updSession s.sessions sid fun t =>
            { t with localMatcher := t.localMatcher.addMapping name id0 } })

/-- TreeRegistry::get_series_name (lines 98-112): look the id up in the
global catalog; unknown gives 0; otherwise mirror into the local matcher,
then return -len without copying when the buffer is too small, else copy the
len bytes and return len.  The copied bytes are returned as the middle
component. -/
def regGetSeriesName (s : SysState) (sid : Nat) (id : Nat) (bufferSize : Nat) :
    Int × List Nat × SysState :=
  match s.globalMatcher.id2str id with
  | none => (0, [], s)
  | some name =>
    let s2 := { s with sessions := updSession s.sessions sid fun t =>
                 { t with localMatcher := t.localMatcher.addMapping name id } }
    if name.length > bufferSize then (-(name.length : Int), [], s2)
    else ((name.length : Int), name, s2)

/-- IngestionSession::get_series_name (lines 217-230): on a local-cache hit
the code memcpy-s name.second bytes and returns name.second without any
buffer-size check; on a miss it delegates to the registry (0 when the
registry is gone). -/
def sessionGetSeriesName (s : SysState) (sid : Nat) (id : Nat) (bufferSize : Nat) :
    Int × List Nat × SysState :=
  match alGet s.sessions sid with
  | none => (0, [], s)
  | some st =>
    match st.localMatcher.id2str id with
    | some name => ((name.length : Int), name, s)
    | none =>
      if s.regAlive then regGetSeriesName s sid id bufferSize
      else (0, [], s)

/-- TreeRegistry::update_rescue_points (lines 47-52): overwrite the buffered
list for the id and signal the sync waiter. -/
def updateRescuePoints (s : SysState) (id : Nat) (addrs : List Nat) : SysState :=
  { s with rescuePoints := alSet s.rescuePoints id addrs }

/-- TreeRegistry::wait_for_sync_request (lines 64-71), wakeup branch: after
the condition variable fires, ERETRY when the buffer is empty (spurious
signal) else SUCCESS.  The timeout branch (real time) returns ETIMEOUT and is
outside the model. -/
def waitForSyncRequestWoken (s : SysState) : AkuStatus :=
  if s.rescuePoints.isEmpty then AkuStatus.eretry else AkuStatus.success

/-- Outcome of one sync_with_metadata_storage call. -/
inductive SyncResult where
  | ok
  | storeError
  deriving DecidableEq

/-- TreeRegistry::sync_with_metadata_storage (lines 54-62).  Modelled from
the spec for the metadata store (not under src/): insert_new_names and
upsert_rescue_points may fail, and since the function returns void a failure
reaches the caller as an exception, leaving the registry fields as they are
at the failure point.  The two Booleans select whether each store call fails.
Note the C++ passes std::move(rescue_points_) to upsert_rescue_points, so the
member is emptied by the call itself, before the store can fail. -/
def syncWithMetadataStorage (insertFails upsertFails : Bool) (s : SysState) :
    SyncResult × SysState :=
  let (newnames, m2) := s.globalMatcher.pullNewNames
  let s1 := { s with globalMatcher := m2 }
  if insertFails then (SyncResult.storeError, s1)
  else
    let s2 := { s1 with meta := { s1.meta with names := s1.meta.names ++ newnames } }
    let pts := s2.rescuePoints
    let s3 := { s2 with rescuePoints := [] }
    if upsertFails then (SyncResult.storeError, s3)
    else (SyncResult.ok,
          { s3 with meta := { s3.meta with
              rescuePoints := alUpsert s3.meta.rescuePoints pts } })

/-- Fold regInitSeriesId over a list of (canonical name, session) calls. -/
def applyInits (s : SysState) (calls : List (List Nat × Nat)) : SysState :=
  calls.foldl (fun acc c => (regInitSeriesId acc c.1 c.2).2) s

/-- One operation of the ingestion layer, for the reachable-state claims. -/
inductive Op where
  | createSession (sid : Nat)
  | initSeries (name : List Nat) (sid : Nat)
  | writeOp (sid : Nat) (smp : Sample)
  | receiveOp (sid : Nat) (smp : Sample)
  | closeOp (sid : Nat)
  | tryAcquireOp (id : Nat)

/-- State transition of one operation (results discarded).  create_session
registers a fresh session under a key not yet in active_ (the C++ key is the
object address, unique among live sessions); a bare try_acquire only returns
a temporary handle that is dropped, so it does not change the state. -/
def stepOp (E : ExtBehavior) (s : SysState) : Op → SysState
  | Op.createSession sid =>
    if (alGet s.sessions sid).isSome then s
    else { s with sessions := (sid, ⟨SeriesMatcher.empty, []⟩) :: s.sessions }
  | Op.initSeries name sid => (regInitSeriesId s name sid).2
  | Op.writeOp sid smp => (write E s sid smp).2
  | Op.receiveOp sid smp => (sessionReceive E s sid smp).2
  | Op.closeOp sid => closeSession s sid
  | Op.tryAcquireOp _ => s

/-- Fold a sequence of operations from a start state. -/
def applyOps (E : ExtBehavior) (s : SysState) (ops : List Op) : SysState :=
  ops.foldl (stepOp E) s

/-- Single-writer property: for every id, at most one live session holds the
extent-list handle of that id in its cache. -/
def SingleWriter (ss : List (Nat × SessionState)) : Prop :=
  ∀ id, (ss.filter fun p => p.2.cache.contains id).length ≤ 1

/-- System invariant: session keys are duplicate-free (they model distinct
object addresses) and the single-writer property holds. -/
def SysInv (s : SysState) : Prop :=
  (s.sessions.map Prod.fst).Nodup ∧ SingleWriter s.sessions

/-- The initial state: live registry, empty catalog, no sessions. -/
def initState : SysState :=
  { regAlive := true
    globalMatcher := SeriesMatcher.empty
    table := []
    rescuePoints := []
    trees := []
    sessions := []
    meta := ⟨[], []⟩ }

/-- Extent-list double that always reports OK_FLUSH_NEEDED and roots
[0xAA, 0xBB] (spec scenario D). -/
def extFlush : ExtBehavior :=
  ⟨fun _ _ _ _ => NBTreeAppendResult.okFlushNeeded, fun _ _ => [170, 187]⟩

/-- Extent-list double that always reports OK and no roots. -/
def extOk : ExtBehavior :=
  ⟨fun _ _ _ _ => NBTreeAppendResult.ok, fun _ _ => []⟩

/-- A state with one registered series (name [97], id 42) and one session
(key 1) that owns nothing yet. -/
def stFresh : SysState :=
  { initState with
      globalMatcher := ⟨[([97], 42)], 43, []⟩,
      table := [42],
      trees := [(42, [])],
      sessions := [(1, ⟨SeriesMatcher.empty, []⟩)] }

/-- Like stFresh, but a second session (key 2) owns the handle of id 42. -/
def stPeerOwns : SysState :=
  { stFresh with sessions := [(1, ⟨SeriesMatcher.empty, []⟩), (2, ⟨SeriesMatcher.empty, [42]⟩)] }

/-- Like stFresh, but session 1 itself owns the handle of id 42. -/
def stSelfOwns : SysState :=
  { stFresh with sessions := [(1, ⟨SeriesMatcher.empty, [42]⟩)] }

/-- A sample for id 42 with a float payload. -/
def smp42 : Sample := ⟨42, 5, PayloadType.float, 3⟩

/-- A state whose only session has the 3-byte name [97, 98, 99] for id 5 in
its local matcher (the session cached it earlier). -/
def stLocalName : SysState :=
  { initState with sessions := [(1, ⟨⟨[([97, 98, 99], 5)], 1, []⟩, []⟩)] }

/-- A state where id 5 with the 3-byte name [97, 98, 99] is known only to the
global matcher, not to the session. -/
def stGlobalName : SysState :=
  { initState with
      globalMatcher := ⟨[([97, 98, 99], 5)], 6, []⟩,
      sessions := [(1, ⟨SeriesMatcher.empty, []⟩)] }

/-- A state with one buffered rescue-point entry. -/
def stPending : SysState := { initState with rescuePoints := [(7, [1, 2])] }

/-- A short concrete operation schedule: two sessions, one series, competing
writes, one close. -/
def opsW : List Op :=
  [Op.createSession 1, Op.createSession 2, Op.initSeries [97] 1,
   Op.writeOp 1 ⟨1, 1, PayloadType.float, 10⟩,
   Op.writeOp 2 ⟨1, 2, PayloadType.float, 20⟩, Op.closeOp 1]

/-- The global catalog currently binds the canonical name n to the id: the
matcher is well formed, match returns the id, id2str returns the name, and
the id is a live allocation (positive and below the allocation counter). -/
def TracksName (s : SysState) (n : List Nat) (id : Nat) : Prop :=
  MatcherInv s.globalMatcher ∧
  s.globalMatcher.matchName n = id ∧
  s.globalMatcher.id2str id = some n ∧
  0 < id ∧
  id < s.globalMatcher.nextId

-- ------------------------------------------------------------------ --
-- Theorems                                                           --
-- ------------------------------------------------------------------ --

theorem alGet_set_self {α : Type} (l : List (Nat × α)) (k : Nat) (v : α) :
    alGet (alSet l k v) k = some v := by
  simp [alGet, alSet, List.find?]

theorem find?_filter_ne {α : Type} (l : List (Nat × α)) (j k : Nat) (h : j ≠ k) :
    ((l.filter fun p => p.1 != k).find? fun p => p.1 == j) =
      l.find? fun p => p.1 == j := by
  induction l with
  | nil => rfl
  | cons a t ih =>
    by_cases hk : a.1 = k
    · have h1 : (a.1 != k) = false := by simp [hk]
      have h2 : (a.1 == j) = false := by
        simp only [beq_eq_false_iff_ne]
        rw [hk]
        exact Ne.symm h
      simp [List.filter_cons, h1, List.find?_cons, h2, ih]
    · have h1 : (a.1 != k) = true := by simp [hk]
      simp only [List.filter_cons, h1, if_true, List.find?_cons]
      cases h2 : (a.1 == j) <;> simp [ih]

theorem alGet_set_ne {α : Type} (l : List (Nat × α)) (j k : Nat) (v : α) (h : j ≠ k) :
    alGet (alSet l k v) j = alGet l j := by
  have hk : (k == j) = false := by
    simp
    omega
  simp [alGet, alSet, List.find?, hk, find?_filter_ne l j k h]

theorem alGet_append {α : Type} (l₁ l₂ : List (Nat × α)) (k : Nat) :
    alGet (l₁ ++ l₂) k = ((alGet l₁ k).orElse fun _ => alGet l₂ k) := by
  induction l₁ with
  | nil => simp [alGet]
  | cons a t ih =>
    by_cases hk : a.1 = k
    · simp [alGet, List.find?, hk]
    · have hk2 : (a.1 == k) = false := by
        simp
        omega
      simpa [alGet, List.find?, hk2] using ih

theorem alGet_upsert_of_some {α : Type} (base upd : List (Nat × α)) (k : Nat) (v : α)
    (h : alGet upd k = some v) : alGet (alUpsert base upd) k = some v := by
  simp [alUpsert, alGet_append, h, Option.orElse]


/-- Claim C1: the claim states that on every OK_FLUSH_NEEDED path of
IngestionSession::write (cache hit, fresh try_acquire, broadcast fallback)
the lookup of the owning handle used for get_roots() succeeds and the rescue
points reach the registry.  In the code the iterator it is captured by
cache_.find(id) at line 243 before the entry is installed, so on the fresh
try_acquire path and on the broadcast path line 268 reads
it->second->get_roots() through cache_.end(), which is undefined behaviour:
both paths crash in the model.  Only the cache-hit path behaves as claimed
(third and fourth conjuncts). -/
theorem write_flush_stale_iterator_bug :
    (write extFlush stFresh 1 smp42).1 = WriteResult.crash ∧
    (write extFlush stPeerOwns 1 smp42).1 = WriteResult.crash ∧
    (write extFlush stSelfOwns 1 smp42).1 = WriteResult.ret AkuStatus.success ∧
    alGet (write extFlush stSelfOwns 1 smp42).2.rescuePoints 42 = some [170, 187] := by
  exact ⟨rfl, rfl, rfl, rfl⟩

/-- Claim C2: the claim states the buffer contract (too small gives -L with
no write) for names found in the local cache as well as for names resolved
via the registry.  The registry path (lines 98-112) honours it: with the
3-byte name and a 2-byte buffer it returns -3 and writes nothing (third and
fourth conjuncts).  The local-cache path (lines 217-230) does not: line 228
memcpy-s the full 3 bytes without any size check and returns 3, overflowing
the 2-byte buffer (first and second conjuncts). -/
theorem get_series_name_local_hit_overflow :
    (sessionGetSeriesName stLocalName 1 5 2).1 = 3 ∧
    (sessionGetSeriesName stLocalName 1 5 2).2.1 = [97, 98, 99] ∧
    (sessionGetSeriesName stGlobalName 1 5 2).1 = -3 ∧
    (sessionGetSeriesName stGlobalName 1 5 2).2.1 = [] := by
  exact ⟨rfl, rfl, rfl, rfl⟩

/-- Claim C3, counterexample: a failing upsert_rescue_points does not leave
the in-memory rescue-point buffer unchanged.  The C++ hands
std::move(rescue_points_) to the store, so by the time the store can fail the
member is already empty: from the state with buffer [(7, [1, 2])] a sync
whose upsert fails propagates the failure but leaves the buffer [], not
[(7, [1, 2])]. -/
theorem sync_upsert_failure_clears_buffer :
    (syncWithMetadataStorage false true stPending).1 = SyncResult.storeError ∧
    (syncWithMetadataStorage false true stPending).2.rescuePoints = [] ∧
    stPending.rescuePoints ≠ [] := by
  exact ⟨rfl, rfl, by decide⟩

/-- Claim C3, amended: a metadata-store failure during sync propagates to the
sync caller in both cases; a failing insert_new_names leaves the rescue-point
buffer unchanged (the move has not happened yet), but a failing
upsert_rescue_points leaves it empty, because the buffer was moved into the
call before the store could fail, so a retried sync cannot drain it. -/
theorem sync_failure_propagation (s : SysState) (b : Bool) :
    ((syncWithMetadataStorage true b s).1 = SyncResult.storeError ∧
      (syncWithMetadataStorage true b s).2.rescuePoints = s.rescuePoints) ∧
    ((syncWithMetadataStorage false true s).1 = SyncResult.storeError ∧
      (syncWithMetadataStorage false true s).2.rescuePoints = []) := by
  unfold syncWithMetadataStorage SeriesMatcher.pullNewNames
  simp

/-- Claim C8: update_rescue_points replaces (does not merge) the buffered
list for an id, and after update_rescue_points(id, r) followed by a
successful sync the metadata store holds r for the id while the registry-side
buffer is empty. -/
theorem update_rescue_points_replace_and_sync (s : SysState) (id : Nat)
    (r0 r : List Nat) :
    alGet (updateRescuePoints (updateRescuePoints s id r0) id r).rescuePoints id
      = some r ∧
    (syncWithMetadataStorage false false (updateRescuePoints s id r)).1
      = SyncResult.ok ∧
    alGet (syncWithMetadataStorage false false
        (updateRescuePoints s id r)).2.meta.rescuePoints id = some r ∧
    (syncWithMetadataStorage false false (updateRescuePoints s id r)).2.rescuePoints
      = [] := by
  unfold syncWithMetadataStorage updateRescuePoints SeriesMatcher.pullNewNames
  refine ⟨alGet_set_self _ _ _, by simp, ?_, by simp⟩
  simp only [Bool.false_eq_true, if_false]
  exact alGet_upsert_of_some _ _ _ _ (alGet_set_self _ _ _)

/-- Claim C9: when the id is already in the session cache, the append
reports OK_FLUSH_NEEDED and the registry has been torn down, write returns
ECLOSED although the sample was already appended to the extent list (the
append is not undone) and the rescue points are silently dropped (the
buffered rescue points are unchanged). -/
theorem write_flush_after_teardown_closed (E : ExtBehavior) (s : SysState)
    (sid : Nat) (st : SessionState) (smp : Sample)
    (hs : alGet s.sessions sid = some st)
    (hc : st.cache.contains smp.paramid = true)
    (hdead : s.regAlive = false)
    (hf : smp.payloadType = PayloadType.float)
    (hres : E.appendRes smp.paramid ((alGet s.trees smp.paramid).getD [])
        smp.timestamp smp.float64 = NBTreeAppendResult.okFlushNeeded) :
    (write E s sid smp).1 = WriteResult.ret AkuStatus.eclosed ∧
    alGet (write E s sid smp).2.trees smp.paramid =
      some (((alGet s.trees smp.paramid).getD []) ++ [(smp.timestamp, smp.float64)]) ∧
    (write E s sid smp).2.rescuePoints = s.rescuePoints := by
  have hc2 : smp.paramid ∈ st.cache := by simpa using hc
  unfold write writeTryPhase writeBroadcastPhase writeInterpret treeAppend
  simp [hs, hc2, hdead, hf, hres, alGet_set_self]

/-- Witness for C9 at a concrete input: session 1 owns id 42, the registry is
gone, the double reports OK_FLUSH_NEEDED. -/
theorem write_flush_after_teardown_closed_witness :
    (alGet ({ stSelfOwns with regAlive := false } : SysState).sessions 1
        = some ⟨SeriesMatcher.empty, [42]⟩) ∧
    ((write extFlush { stSelfOwns with regAlive := false } 1 smp42).1
        = WriteResult.ret AkuStatus.eclosed ∧
      alGet (write extFlush { stSelfOwns with regAlive := false } 1 smp42).2.trees 42 =
        some ([] ++ [((5 : Int), (3 : Int))]) ∧
      (write extFlush { stSelfOwns with regAlive := false } 1 smp42).2.rescuePoints
        = { stSelfOwns with regAlive := false }.rescuePoints) := by
  exact ⟨rfl, write_flush_after_teardown_closed extFlush _ 1 _ smp42 rfl rfl rfl rfl rfl⟩

/-- Claim C10: registering a brand-new series buffers an empty rescue-point
list for the fresh id, so right after registration the buffer is non-empty, a
wakened wait_for_sync_request answers SUCCESS rather than ERETRY, and the
next successful sync hands the fresh id with an empty root list to the
metadata store. -/
theorem init_new_series_buffers_empty_roots (s : SysState) (name : List Nat)
    (sid : Nat) (hnew : s.globalMatcher.matchName name = 0) :
    alGet (regInitSeriesId s name sid).2.rescuePoints (regInitSeriesId s name sid).1
      = some [] ∧
    (regInitSeriesId s name sid).2.rescuePoints ≠ [] ∧
    waitForSyncRequestWoken (regInitSeriesId s name sid).2 = AkuStatus.success ∧
    (syncWithMetadataStorage false false (regInitSeriesId s name sid).2).1
      = SyncResult.ok ∧
    alGet (syncWithMetadataStorage false false
        (regInitSeriesId s name sid).2).2.meta.rescuePoints
        (regInitSeriesId s name sid).1 = some [] := by
  unfold regInitSeriesId waitForSyncRequestWoken syncWithMetadataStorage
    SeriesMatcher.pullNewNames SeriesMatcher.add
  refine ⟨?_, ?_, ?_, ?_, ?_⟩
  · simp [hnew, alGet_set_self]
  · simp [hnew, alSet]
  · simp [hnew, alSet]
  · simp [hnew]
  · simp only [hnew, if_true, Bool.false_eq_true, if_false]
    exact alGet_upsert_of_some _ _ _ _ (alGet_set_self _ _ _)

/-- Witness for C10: register the new name [97, 98] from session 1 in the
initial state. -/
theorem init_new_series_buffers_empty_roots_witness :
    initState.globalMatcher.matchName [97, 98] = 0 ∧
    (alGet (regInitSeriesId initState [97, 98] 1).2.rescuePoints
        (regInitSeriesId initState [97, 98] 1).1 = some [] ∧
      (regInitSeriesId initState [97, 98] 1).2.rescuePoints ≠ [] ∧
      waitForSyncRequestWoken (regInitSeriesId initState [97, 98] 1).2
        = AkuStatus.success ∧
      (syncWithMetadataStorage false false (regInitSeriesId initState [97, 98] 1).2).1
        = SyncResult.ok ∧
      alGet (syncWithMetadataStorage false false
          (regInitSeriesId initState [97, 98] 1).2).2.meta.rescuePoints
          (regInitSeriesId initState [97, 98] 1).1 = some []) := by
  exact ⟨rfl, init_new_series_buffers_empty_roots initState [97, 98] 1 rfl⟩

theorem matchName_mem (m : SeriesMatcher) (n : List Nat) (h : m.matchName n ≠ 0) :
    (n, m.matchName n) ∈ m.table := by
  unfold SeriesMatcher.matchName at h ⊢
  cases hf : m.table.find? fun q => q.1 == n with
  | none => rw [hf] at h; simp at h
  | some p =>
    have hmem := List.mem_of_find?_eq_some hf
    have hp1 : p.1 = n := by simpa using List.find?_some hf
    simpa [← hp1] using hmem

theorem matchName_zero_not_mem (m : SeriesMatcher) (n : List Nat)
    (hinv : MatcherInv m) (h : m.matchName n = 0) : n ∉ m.table.map Prod.fst := by
  unfold SeriesMatcher.matchName at h
  cases hf : m.table.find? fun q => q.1 == n with
  | none =>
    intro hmem
    rcases List.mem_map.1 hmem with ⟨p, hp, hpn⟩
    have := List.find?_eq_none.1 hf p hp
    simp [hpn] at this
  | some q =>
    rw [hf] at h
    simp at h
    have := (hinv.2.1 q (List.mem_of_find?_eq_some hf)).1
    omega

theorem matcherInv_add (m : SeriesMatcher) (n : List Nat)
    (hinv : MatcherInv m) (h : m.matchName n = 0) : MatcherInv (m.add n).2 := by
  obtain ⟨h1, h2, h3, h4⟩ := hinv
  refine ⟨by simp [SeriesMatcher.add], ?_, ?_, ?_⟩
  · intro p hp
    rcases List.mem_cons.1 hp with hp | hp
    · subst hp
      simp [SeriesMatcher.add]
      omega
    · have := h2 p hp
      simp [SeriesMatcher.add]
      omega
  · have hn := matchName_zero_not_mem m n ⟨h1, h2, h3, h4⟩ h
    have hn2 : ∀ x : Nat, (n, x) ∉ m.table := by
      intro x hx
      exact hn (List.mem_map.2 ⟨(n, x), hx, rfl⟩)
    simpa [SeriesMatcher.add] using ⟨hn2, h3⟩
  · have hm2 : ∀ x : List Nat, (x, m.nextId) ∉ m.table := by
      intro x hx
      have := (h2 _ hx).2
      omega
    simpa [SeriesMatcher.add] using ⟨hm2, h4⟩

theorem id2str_of_mem (m : SeriesMatcher) (n : List Nat) (id : Nat)
    (hinv : MatcherInv m) (hmem : (n, id) ∈ m.table) : m.id2str id = some n := by
  unfold SeriesMatcher.id2str
  cases hf : m.table.find? fun q => q.2 == id with
  | none =>
    have := List.find?_eq_none.1 hf (n, id) hmem
    simp at this
  | some q =>
    have hq2 : q.2 = id := by simpa using List.find?_some hf
    have hqmem := List.mem_of_find?_eq_some hf
    have heq : q = (n, id) :=
      List.inj_on_of_nodup_map hinv.2.2.2 hqmem hmem (by simp [hq2])
    simp [heq]

theorem matchName_add_self (m : SeriesMatcher) (n : List Nat) :
    ((m.add n).2).matchName n = m.nextId := by
  unfold SeriesMatcher.add SeriesMatcher.matchName
  simp [List.find?_cons]

theorem id2str_add_self (m : SeriesMatcher) (n : List Nat) :
    ((m.add n).2).id2str m.nextId = some n := by
  unfold SeriesMatcher.add SeriesMatcher.id2str
  simp [List.find?_cons]

theorem matchName_add_other (m : SeriesMatcher) (n n' : List Nat) (hne : n' ≠ n) :
    ((m.add n').2).matchName n = m.matchName n := by
  unfold SeriesMatcher.add SeriesMatcher.matchName
  have hb : (n' == n) = false := by simpa using hne
  simp [List.find?_cons, hb]

theorem id2str_add_lt (m : SeriesMatcher) (n' : List Nat) (id : Nat)
    (hlt : id < m.nextId) : ((m.add n').2).id2str id = m.id2str id := by
  unfold SeriesMatcher.add SeriesMatcher.id2str
  have hb : (m.nextId == id) = false := by
    simp
    omega
  simp [List.find?_cons, hb]

theorem regInit_globalMatcher (s : SysState) (n : List Nat) (sid : Nat) :
    (regInitSeriesId s n sid).2.globalMatcher =
      (if s.globalMatcher.matchName n = 0 then (s.globalMatcher.add n).2
       else s.globalMatcher) ∧
    (regInitSeriesId s n sid).1 =
      (if s.globalMatcher.matchName n = 0 then s.globalMatcher.nextId
       else s.globalMatcher.matchName n) := by
  unfold regInitSeriesId
  by_cases h : s.globalMatcher.matchName n = 0 <;> simp [h, SeriesMatcher.add]

theorem tracksName_first (s : SysState) (n : List Nat) (sid : Nat)
    (hinv : MatcherInv s.globalMatcher) :
    TracksName (regInitSeriesId s n sid).2 n (regInitSeriesId s n sid).1 := by
  obtain ⟨hm, hid⟩ := regInit_globalMatcher s n sid
  unfold TracksName
  rw [hm, hid]
  by_cases h : s.globalMatcher.matchName n = 0
  · simp only [h, if_true]
    refine ⟨matcherInv_add _ _ hinv h, matchName_add_self _ _, id2str_add_self _ _,
      hinv.1, ?_⟩
    simp [SeriesMatcher.add]
  · simp only [h, if_false]
    have hmem := matchName_mem _ _ h
    have hbound := hinv.2.1 _ hmem
    exact ⟨hinv, by trivial, id2str_of_mem _ _ _ hinv hmem, hbound.1, hbound.2⟩

theorem tracksName_init (s : SysState) (n : List Nat) (id : Nat) (n' : List Nat)
    (sid' : Nat) (h : TracksName s n id) :
    TracksName (regInitSeriesId s n' sid').2 n id := by
  obtain ⟨hinv, hmatch, hstr, hpos, hlt⟩ := h
  obtain ⟨hm, _⟩ := regInit_globalMatcher s n' sid'
  unfold TracksName
  rw [hm]
  by_cases hnew : s.globalMatcher.matchName n' = 0
  · have hne : n' ≠ n := by
      intro he
      rw [he, hmatch] at hnew
      omega
    simp only [hnew, if_true]
    refine ⟨matcherInv_add _ _ hinv hnew, ?_, ?_, hpos, ?_⟩
    · rw [matchName_add_other _ _ _ hne]
      exact hmatch
    · rw [id2str_add_lt _ _ _ hlt]
      exact hstr
    · simp [SeriesMatcher.add]
      omega
  · simp only [hnew, if_false]
    exact ⟨hinv, hmatch, hstr, hpos, hlt⟩

theorem tracksName_applyInits (s : SysState) (n : List Nat) (id : Nat)
    (calls : List (List Nat × Nat)) (h : TracksName s n id) :
    TracksName (applyInits s calls) n id := by
  induction calls generalizing s with
  | nil => exact h
  | cons c rest ih =>
    exact ih (regInitSeriesId s c.1 c.2).2 (tracksName_init _ _ _ _ _ h)

/-- Claim C5: for every sequence of init_series_id calls, a canonical name
maps to exactly one id: after registering n (from any session) and then any
further sequence of init_series_id calls, registering n again (from any
session) returns the same id and leaves the global catalog unchanged (no
second entry); and get_series_name on that id returns the canonical name n
(length and bytes). -/
theorem init_series_id_stable_and_invertible (s : SysState)
    (hinv : MatcherInv s.globalMatcher) (n : List Nat) (sid sid2 : Nat)
    (calls : List (List Nat × Nat)) :
    (regInitSeriesId (applyInits (regInitSeriesId s n sid).2 calls) n sid2).1
      = (regInitSeriesId s n sid).1 ∧
    (regInitSeriesId (applyInits (regInitSeriesId s n sid).2 calls) n sid2).2.globalMatcher
      = (applyInits (regInitSeriesId s n sid).2 calls).globalMatcher ∧
    (regGetSeriesName (applyInits (regInitSeriesId s n sid).2 calls) sid2
        (regInitSeriesId s n sid).1 n.length).1 = (n.length : Int) ∧
    (regGetSeriesName (applyInits (regInitSeriesId s n sid).2 calls) sid2
        (regInitSeriesId s n sid).1 n.length).2.1 = n := by
  obtain ⟨hinv2, hmatch, hstr, hpos, hlt⟩ :=
    tracksName_applyInits _ n _ calls (tracksName_first s n sid hinv)
  have hnz : ¬ ((applyInits (regInitSeriesId s n sid).2 calls).globalMatcher.matchName n
      = 0) := by
    rw [hmatch]
    omega
  refine ⟨?_, ?_, ?_, ?_⟩
  · obtain ⟨_, hid⟩ := regInit_globalMatcher
      (applyInits (regInitSeriesId s n sid).2 calls) n sid2
    rw [hid, if_neg hnz]
    exact hmatch
  · obtain ⟨hm, _⟩ := regInit_globalMatcher
      (applyInits (regInitSeriesId s n sid).2 calls) n sid2
    rw [hm, if_neg hnz]
  · unfold regGetSeriesName
    simp [hstr]
  · unfold regGetSeriesName
    simp [hstr]

/-- Witness for C5: register [97] from session 1 in the initial state, then
register [98] from session 2, then register [97] again from session 3. -/
theorem init_series_id_stable_and_invertible_witness :
    MatcherInv initState.globalMatcher ∧
    ((regInitSeriesId (applyInits (regInitSeriesId initState [97] 1).2 [([98], 2)]) [97] 3).1
        = (regInitSeriesId initState [97] 1).1 ∧
      (regInitSeriesId (applyInits (regInitSeriesId initState [97] 1).2
          [([98], 2)]) [97] 3).2.globalMatcher
        = (applyInits (regInitSeriesId initState [97] 1).2 [([98], 2)]).globalMatcher ∧
      (regGetSeriesName (applyInits (regInitSeriesId initState [97] 1).2 [([98], 2)]) 3
          (regInitSeriesId initState [97] 1).1 (List.length [97])).1
        = ((List.length [97] : Nat) : Int) ∧
      (regGetSeriesName (applyInits (regInitSeriesId initState [97] 1).2 [([98], 2)]) 3
          (regInitSeriesId initState [97] 1).1 (List.length [97])).2.1 = [97]) := by
  exact ⟨by decide,
    init_series_id_stable_and_invertible initState (by decide) [97] 1 3 [([98], 2)]⟩

theorem alGet_eq_none_iff {α : Type} (l : List (Nat × α)) (k : Nat) :
    alGet l k = none ↔ ∀ p ∈ l, p.1 ≠ k := by
  unfold alGet
  rw [Option.map_eq_none', List.find?_eq_none]
  simp

theorem alGet_mem {α : Type} (l : List (Nat × α)) (k : Nat) (v : α)
    (h : alGet l k = some v) : (k, v) ∈ l := by
  unfold alGet at h
  cases hf : l.find? fun p => p.1 == k with
  | none => rw [hf] at h; simp at h
  | some p =>
    rw [hf] at h
    simp at h
    have hmem := List.mem_of_find?_eq_some hf
    have hp1 : p.1 = k := by simpa using List.find?_some hf
    have hp : p = (k, v) := by
      cases p
      simp_all
    rwa [hp] at hmem

theorem updSession_map_fst (ss : List (Nat × SessionState)) (sid : Nat)
    (f : SessionState → SessionState) :
    (updSession ss sid f).map Prod.fst = ss.map Prod.fst := by
  induction ss with
  | nil => rfl
  | cons a t ih =>
    unfold updSession at *
    simp only [List.map_cons]
    refine congrArg₂ List.cons ?_ ih
    by_cases h : a.1 = sid <;> simp [h]

theorem length_filter_updSession (ss : List (Nat × SessionState)) (sid : Nat)
    (f : SessionState → SessionState) (q : Nat × SessionState → Bool)
    (hq : ∀ p : Nat × SessionState, q (p.1, f p.2) = q p) :
    ((updSession ss sid f).filter q).length = (ss.filter q).length := by
  induction ss with
  | nil => rfl
  | cons a t ih =>
    unfold updSession at *
    simp only [List.map_cons, List.filter_cons]
    by_cases h : a.1 = sid
    · rw [if_pos h, hq a]
      cases hqa : q a <;> simp [ih]
    · rw [if_neg h]
      cases hqa : q a <;> simp [ih]

theorem length_filter_key_le_one (ss : List (Nat × SessionState)) (sid : Nat)
    (hn : (ss.map Prod.fst).Nodup) :
    (ss.filter fun p => p.1 == sid).length ≤ 1 := by
  induction ss with
  | nil => simp
  | cons a t ih =>
    simp only [List.map_cons, List.nodup_cons] at hn
    by_cases h : a.1 = sid
    · have ht0 : (t.filter fun p => p.1 == sid) = [] := by
        apply List.filter_eq_nil.2
        intro p hp
        intro hps
        have hps2 : p.1 = sid := by simpa using hps
        exact hn.1 (List.mem_map.2 ⟨p, hp, by rw [hps2, ← h]⟩)
      simp [List.filter_cons, h, ht0]
    · have hb : (a.1 == sid) = false := by simp [h]
      simp only [List.filter_cons, hb]
      exact ih hn.2

theorem filter_contains_updCons (ss : List (Nat × SessionState)) (sid id : Nat)
    (hfree : ∀ p ∈ ss, p.2.cache.contains id = false) :
    ((updSession ss sid fun t => { t with cache := id :: t.cache }).filter
        fun p => p.2.cache.contains id).length
      = (ss.filter fun p => p.1 == sid).length := by
  induction ss with
  | nil => rfl
  | cons a t ih =>
    have ha := hfree a (List.mem_cons_self a t)
    have ihr := ih fun p hp => hfree p (List.mem_cons_of_mem _ hp)
    unfold updSession at *
    simp only [List.map_cons, List.filter_cons]
    by_cases h : a.1 = sid
    · rw [if_pos h]
      simp [List.contains_cons, h] at ihr ⊢
      omega
    · rw [if_neg h]
      simp at ha ihr ⊢
      simp [ha, ihr, h]

theorem singleWriter_updCons (ss : List (Nat × SessionState)) (sid id : Nat)
    (hn : (ss.map Prod.fst).Nodup) (hsw : SingleWriter ss)
    (hfree : (ss.filter fun p => p.2.cache.contains id) = []) :
    SingleWriter (updSession ss sid fun t => { t with cache := id :: t.cache }) := by
  intro id'
  by_cases hid : id' = id
  · subst hid
    rw [filter_contains_updCons ss sid id'
      (fun p hp => by simpa using List.filter_eq_nil.1 hfree p hp)]
    exact length_filter_key_le_one ss sid hn
  · have hb : (id' == id) = false := by simp [hid]
    rw [length_filter_updSession ss sid _ _
      (fun p => by simp [List.contains_cons, hb, hid])]
    exact hsw id'

theorem writeTryPhase_sessions (E : ExtBehavior) (s : SysState) (sid : Nat)
    (smp : Sample) :
    (writeTryPhase E s sid smp).2.sessions = s.sessions ∨
    ((s.sessions.filter fun p => p.2.cache.contains smp.paramid) = [] ∧
      (writeTryPhase E s sid smp).2.sessions =
        updSession s.sessions sid fun t => { t with cache := smp.paramid :: t.cache }) := by
  unfold writeTryPhase regTryAcquire
  cases hs : alGet s.sessions sid with
  | none => exact Or.inl rfl
  | some st =>
    by_cases hc : smp.paramid ∈ st.cache
    · left
      simp [hc]
    · by_cases ha : s.regAlive = true
      · by_cases ht : smp.paramid ∈ s.table
        · by_cases hh : holders s.sessions smp.paramid = []
          · right
            constructor
            · have h0 := hh
              unfold holders at h0
              exact List.map_eq_nil_iff.1 h0
            · simp [hc, ha, ht, hh]
          · left
            simp [hc, ha, ht, hh]
        · left
          simp [hc, ha, ht]
      · left
        simp [hc, ha]

theorem writeBroadcastPhase_sessions (E : ExtBehavior) (s : SysState) (sid : Nat)
    (smp : Sample) (c : WriteCtx) :
    (writeBroadcastPhase E s sid smp c).2.sessions = s.sessions := by
  unfold writeBroadcastPhase broadcastSample
  by_cases h : c.needBroadcast = true <;> simp [h]

theorem writeInterpret_sessions (E : ExtBehavior) (s : SysState) (id : Nat)
    (c : WriteCtx) : (writeInterpret E s id c).2.sessions = s.sessions := by
  unfold writeInterpret
  by_cases h : c.status = AkuStatus.success
  · simp only [h, if_true]
    cases hr : c.res
    · rfl
    · by_cases h2 : c.itFound = true
      · by_cases h3 : s.regAlive = true <;> simp [h2, h3]
      · simp [h2]
    · rfl
    · rfl
  · simp [h]

theorem write_sessions (E : ExtBehavior) (s : SysState) (sid : Nat) (smp : Sample) :
    (write E s sid smp).2.sessions = s.sessions ∨
    ((s.sessions.filter fun p => p.2.cache.contains smp.paramid) = [] ∧
      (write E s sid smp).2.sessions =
        updSession s.sessions sid fun t => { t with cache := smp.paramid :: t.cache }) := by
  by_cases hf : smp.payloadType = PayloadType.float
  · rcases writeTryPhase_sessions E s sid smp with h1 | ⟨hfree, h1⟩
    · left
      unfold write
      simp only [hf, ne_eq, not_true_eq_false, if_false]
      rw [writeInterpret_sessions, writeBroadcastPhase_sessions, h1]
    · right
      refine ⟨hfree, ?_⟩
      unfold write
      simp only [hf, ne_eq, not_true_eq_false, if_false]
      rw [writeInterpret_sessions, writeBroadcastPhase_sessions, h1]
  · left
    unfold write
    simp [hf]

theorem sessionReceive_sessions (E : ExtBehavior) (s : SysState) (sid : Nat)
    (smp : Sample) : (sessionReceive E s sid smp).2.sessions = s.sessions := by
  unfold sessionReceive
  cases h : alGet s.sessions sid <;> simp

theorem sysInv_closeSession (s : SysState) (sid : Nat) (h : SysInv s) :
    SysInv (closeSession s sid) := by
  obtain ⟨hn, hsw⟩ := h
  constructor
  · exact hn.sublist (List.Sublist.map _ (List.filter_sublist _))
  · intro id
    have hsub : List.Sublist ((s.sessions.filter fun p => p.1 != sid).filter
        fun p => p.2.cache.contains id)
        (s.sessions.filter fun p => p.2.cache.contains id) :=
      List.Sublist.filter _ (List.filter_sublist _)
    exact le_trans hsub.length_le (hsw id)

theorem singleWriter_updSession_matcher (ss : List (Nat × SessionState)) (sid : Nat)
    (g : SeriesMatcher → SeriesMatcher)
    (hn : (ss.map Prod.fst).Nodup) (hsw : SingleWriter ss) :
    ((updSession ss sid fun t => { t with localMatcher := g t.localMatcher }).map
        Prod.fst).Nodup ∧
    SingleWriter (updSession ss sid fun t => { t with localMatcher := g t.localMatcher }) := by
  constructor
  · rw [updSession_map_fst]
    exact hn
  · intro id
    rw [length_filter_updSession _ _ _ _ (fun p => rfl)]
    exact hsw id

theorem sysInv_stepOp (E : ExtBehavior) (s : SysState) (op : Op) (h : SysInv s) :
    SysInv (stepOp E s op) := by
  obtain ⟨hn, hsw⟩ := h
  cases op with
  | createSession sid =>
    unfold stepOp
    by_cases hp : (alGet s.sessions sid).isSome = true
    · simpa [hp] using ⟨hn, hsw⟩
    · have hnone : alGet s.sessions sid = none := by
        cases hq : alGet s.sessions sid
        · rfl
        · rw [hq] at hp
          simp at hp
      simp only [hnone, Option.isSome_none, Bool.false_eq_true, if_false]
      constructor
      · simp only [List.map_cons, List.nodup_cons]
        refine ⟨?_, hn⟩
        intro hmem
        rcases List.mem_map.1 hmem with ⟨p, hpmem, hp1⟩
        exact (alGet_eq_none_iff s.sessions sid).1 hnone p hpmem hp1
      · intro id
        simp only [List.filter_cons]
        simp only [show (SessionState.cache ⟨SeriesMatcher.empty, []⟩).contains id = false
          from rfl, Bool.false_eq_true, if_false]
        exact hsw id
  | initSeries name sid =>
    unfold stepOp regInitSeriesId
    by_cases hm : s.globalMatcher.matchName name = 0
    · simp only [hm, if_true]
      exact singleWriter_updSession_matcher s.sessions sid
        (fun m => m.addMapping name s.globalMatcher.nextId) hn hsw
    · simp only [hm, if_false]
      exact singleWriter_updSession_matcher s.sessions sid
        (fun m => m.addMapping name (s.globalMatcher.matchName name)) hn hsw
  | writeOp sid smp =>
    unfold stepOp
    rcases write_sessions E s sid smp with hw | ⟨hfree, hw⟩
    · constructor
      · rw [hw]
        exact hn
      · intro id
        rw [hw]
        exact hsw id
    · constructor
      · rw [hw, updSession_map_fst]
        exact hn
      · rw [hw]
        exact singleWriter_updCons s.sessions sid smp.paramid hn hsw hfree
  | receiveOp sid smp =>
    unfold stepOp
    constructor
    · rw [sessionReceive_sessions]
      exact hn
    · intro id
      rw [sessionReceive_sessions]
      exact hsw id
  | closeOp sid => exact sysInv_closeSession s sid ⟨hn, hsw⟩
  | tryAcquireOp id => exact ⟨hn, hsw⟩

theorem sysInv_applyOps (E : ExtBehavior) (s : SysState) (ops : List Op)
    (h : SysInv s) : SysInv (applyOps E s ops) := by
  induction ops generalizing s with
  | nil => exact h
  | cons op rest ih => exact ih _ (sysInv_stepOp E s op h)

theorem regTryAcquire_spec (s : SysState) (id : Nat)
    (htab : s.table.contains id = true) :
    (regTryAcquire s id = (AkuStatus.success, true) ↔ holders s.sessions id = []) ∧
    (holders s.sessions id ≠ [] → regTryAcquire s id = (AkuStatus.ebusy, false)) := by
  unfold regTryAcquire
  have ht2 : id ∈ s.table := by simpa using htab
  by_cases hh : holders s.sessions id = []
  · have he : (holders s.sessions id).isEmpty = true := by simp [hh]
    simp [ht2, he, hh]
  · have he : (holders s.sessions id).isEmpty = false := by
      cases hq : holders s.sessions id
      · exact absurd hq hh
      · rfl
    simp [ht2, he, hh]

/-- Claim C4: from any state satisfying the invariant, under any sequence of
operations (session creation, series registration, write, direct
_receive_broadcast, close, bare try_acquire) by any number of sessions, at
most one session at a time holds the extent-list handle of any id (together
with duplicate-free session keys); and for any id with a registry entry,
try_acquire returns (SUCCESS, handle) exactly when no strong reference
besides the one of the registry exists (no session cache holds the id), and
returns (EBUSY, no handle) whenever some session holds it. -/
theorem single_writer_invariant (E : ExtBehavior) (s0 : SysState) (ops : List Op)
    (h : SysInv s0) :
    SysInv (applyOps E s0 ops) ∧
    ∀ id, (applyOps E s0 ops).table.contains id = true →
      ((regTryAcquire (applyOps E s0 ops) id = (AkuStatus.success, true) ↔
        holders (applyOps E s0 ops).sessions id = []) ∧
      (holders (applyOps E s0 ops).sessions id ≠ [] →
        regTryAcquire (applyOps E s0 ops) id = (AkuStatus.ebusy, false))) :=
  ⟨sysInv_applyOps E s0 ops h,
   fun id htab => regTryAcquire_spec (applyOps E s0 ops) id htab⟩

/-- Witness for C4: the schedule opsW (two sessions racing on one series)
from the initial state. -/
theorem single_writer_invariant_witness :
    SysInv initState ∧
    (SysInv (applyOps extOk initState opsW) ∧
      ∀ id, (applyOps extOk initState opsW).table.contains id = true →
        ((regTryAcquire (applyOps extOk initState opsW) id = (AkuStatus.success, true) ↔
          holders (applyOps extOk initState opsW).sessions id = []) ∧
        (holders (applyOps extOk initState opsW).sessions id ≠ [] →
          regTryAcquire (applyOps extOk initState opsW) id = (AkuStatus.ebusy, false)))) :=
  ⟨⟨by simp [initState], fun id => by simp [initState]⟩,
   single_writer_invariant extOk initState opsW
     ⟨by simp [initState], fun id => by simp [initState]⟩⟩

theorem filter_length_le_one_unique {γ : Type} (l : List γ) (q : γ → Bool)
    (h : (l.filter q).length ≤ 1) (a b : γ) (ha : a ∈ l) (hqa : q a = true)
    (hb : b ∈ l) (hqb : q b = true) : a = b := by
  have ha2 : a ∈ l.filter q := List.mem_filter.2 ⟨ha, hqa⟩
  have hb2 : b ∈ l.filter q := List.mem_filter.2 ⟨hb, hqb⟩
  have hlen : (l.filter q).length = 1 :=
    le_antisymm h (List.length_pos.2 (List.ne_nil_of_mem ha2))
  rcases List.length_eq_one.1 hlen with ⟨x, hx⟩
  rw [hx] at ha2 hb2
  simp at ha2 hb2
  rw [ha2, hb2]

theorem only_owner_holds (ss : List (Nat × SessionState)) (bKey : Nat)
    (stB : SessionState) (hsw : SingleWriter ss) (hmem : (bKey, stB) ∈ ss)
    (x : Nat) (hBx : stB.cache.contains x = true) :
    ∀ p ∈ ss, p.1 ≠ bKey → p.2.cache.contains x = false := by
  intro p hp hne
  cases hq : p.2.cache.contains x
  · rfl
  · have heq := filter_length_le_one_unique ss (fun p => p.2.cache.contains x)
      (hsw x) p (bKey, stB) hp hq hmem hBx
    rw [heq] at hne
    exact absurd rfl hne

theorem broadcastLoop_no_owner (E : ExtBehavior) (smp : Sample) (src : Nat) :
    ∀ (l : List (Nat × SessionState)) (trees : List (Nat × List (Int × Int))),
      (∀ p ∈ l, p.1 = src ∨ p.2.cache.contains smp.paramid = false) →
      broadcastLoop E smp src l trees = (NBTreeAppendResult.failBadId, trees) := by
  intro l
  induction l with
  | nil => intro trees _; rfl
  | cons a t ih =>
    intro trees h
    have ha := h a (List.mem_cons_self a t)
    unfold broadcastLoop
    by_cases hs : a.1 = src
    · have hb : (a.1 == src) = true := by simp [hs]
      simp only [hb, if_true]
      exact ih trees fun p hp => h p (List.mem_cons_of_mem _ hp)
    · have hb : (a.1 == src) = false := by simp [hs]
      rcases ha with ha | ha
      · exact absurd ha hs
      · simp only [hb, Bool.false_eq_true, if_false]
        unfold receiveBroadcast
        simp only [ha, Bool.false_eq_true, if_false]
        exact ih trees fun p hp => h p (List.mem_cons_of_mem _ hp)

theorem broadcastLoop_unique (E : ExtBehavior) (smp : Sample) (src bKey : Nat)
    (stB : SessionState) (hBsrc : bKey ≠ src)
    (hBx : stB.cache.contains smp.paramid = true) :
    ∀ (l : List (Nat × SessionState)) (trees : List (Nat × List (Int × Int))),
      (bKey, stB) ∈ l → (l.map Prod.fst).Nodup →
      (∀ p ∈ l, p.1 ≠ src → p.1 ≠ bKey → p.2.cache.contains smp.paramid = false) →
      broadcastLoop E smp src l trees
        = treeAppend E trees smp.paramid smp.timestamp smp.float64 := by
  intro l
  induction l with
  | nil => intro trees hmem _ _; exact absurd hmem (List.not_mem_nil _)
  | cons a t ih =>
    intro trees hmem hnd hothers
    simp only [List.map_cons, List.nodup_cons] at hnd
    unfold broadcastLoop
    rcases List.mem_cons.1 hmem with heq | hmem2
    · have ha1 : a.1 = bKey := by rw [← heq]
      have hb : (a.1 == src) = false := by simp [ha1, hBsrc]
      have hax : a.2.cache.contains smp.paramid = true := by
        rw [← heq]
        exact hBx
      simp only [hb, Bool.false_eq_true, if_false]
      unfold receiveBroadcast
      have hax2 : smp.paramid ∈ a.2.cache := by simpa using hax
      simp [hax2]
    · have haB : a.1 ≠ bKey := by
        intro he
        exact hnd.1 (by
          rw [he]
          exact List.mem_map.2 ⟨(bKey, stB), hmem2, rfl⟩)
      by_cases hs : a.1 = src
      · have hb : (a.1 == src) = true := by simp [hs]
        simp only [hb, if_true]
        exact ih trees hmem2 hnd.2 fun p hp => hothers p (List.mem_cons_of_mem _ hp)
      · have hb : (a.1 == src) = false := by simp [hs]
        have hax := hothers a (List.mem_cons_self a t) hs haB
        simp only [hb, Bool.false_eq_true, if_false]
        unfold receiveBroadcast
        simp only [hax, Bool.false_eq_true, if_false]
        exact ih trees hmem2 hnd.2 fun p hp => hothers p (List.mem_cons_of_mem _ hp)

theorem writeTryPhase_busy (E : ExtBehavior) (s : SysState) (aKey bKey : Nat)
    (stA stB : SessionState) (smp : Sample)
    (hAB : aKey ≠ bKey)
    (hA : alGet s.sessions aKey = some stA)
    (hB : alGet s.sessions bKey = some stB)
    (hBx : stB.cache.contains smp.paramid = true)
    (htab : smp.paramid ∈ s.table)
    (halive : s.regAlive = true)
    (hinv : SysInv s) :
    writeTryPhase E s aKey smp
      = (⟨AkuStatus.success, false, NBTreeAppendResult.ok, true⟩, s) := by
  obtain ⟨hnd, hsw⟩ := hinv
  have hmemB := alGet_mem _ _ _ hB
  have hmemA := alGet_mem _ _ _ hA
  have hxA : stA.cache.contains smp.paramid = false := by
    cases hq : stA.cache.contains smp.paramid
    · rfl
    · have heq := filter_length_le_one_unique s.sessions
        (fun p => p.2.cache.contains smp.paramid) (hsw smp.paramid)
        (aKey, stA) (bKey, stB) hmemA hq hmemB hBx
      exact absurd (congrArg Prod.fst heq) hAB
  have hxA2 : smp.paramid ∉ stA.cache := by simpa using hxA
  have hhold : holders s.sessions smp.paramid ≠ [] := by
    unfold holders
    intro hnil
    have hmf : (bKey, stB) ∈ s.sessions.filter fun p => p.2.cache.contains smp.paramid :=
      List.mem_filter.2 ⟨hmemB, hBx⟩
    rw [List.map_eq_nil_iff.1 hnil] at hmf
    exact List.not_mem_nil _ hmf
  unfold writeTryPhase regTryAcquire
  simp [hA, hxA2, halive, htab, hhold]

/-- Claim C6: if session B holds the id of the sample and a different session
A writes it, then A's try phase resolves to EBUSY and a pending broadcast
(status reset to SUCCESS, nothing appended yet, A's cache unchanged), B's
_receive_broadcast appends the sample to the extent list it owns and reports
(handled = true, outcome), and the broadcast phase returns exactly that
outcome as the append result while only the trees change — in particular A's
owned set never gains the id (the sessions component is untouched). -/
theorem write_busy_routes_via_broadcast (E : ExtBehavior) (s : SysState)
    (aKey bKey : Nat) (stA stB : SessionState) (smp : Sample)
    (hAB : aKey ≠ bKey)
    (hA : alGet s.sessions aKey = some stA)
    (hB : alGet s.sessions bKey = some stB)
    (hBx : stB.cache.contains smp.paramid = true)
    (htab : smp.paramid ∈ s.table)
    (halive : s.regAlive = true)
    (hinv : SysInv s) :
    writeTryPhase E s aKey smp
      = (⟨AkuStatus.success, false, NBTreeAppendResult.ok, true⟩, s) ∧
    receiveBroadcast E stB s.trees smp
      = ((true, (treeAppend E s.trees smp.paramid smp.timestamp smp.float64).1),
         (treeAppend E s.trees smp.paramid smp.timestamp smp.float64).2) ∧
    writeBroadcastPhase E s aKey smp
        ⟨AkuStatus.success, false, NBTreeAppendResult.ok, true⟩
      = (⟨AkuStatus.success, false,
          (treeAppend E s.trees smp.paramid smp.timestamp smp.float64).1, false⟩,
         { s with trees := (treeAppend E s.trees smp.paramid smp.timestamp smp.float64).2 }) ∧
    (writeBroadcastPhase E s aKey smp
        ⟨AkuStatus.success, false, NBTreeAppendResult.ok, true⟩).2.sessions
      = s.sessions := by
  obtain ⟨hnd, hsw⟩ := hinv
  have hmemB := alGet_mem _ _ _ hB
  have h1 := writeTryPhase_busy E s aKey bKey stA stB smp hAB hA hB hBx htab halive
    ⟨hnd, hsw⟩
  have h2 : receiveBroadcast E stB s.trees smp
      = ((true, (treeAppend E s.trees smp.paramid smp.timestamp smp.float64).1),
         (treeAppend E s.trees smp.paramid smp.timestamp smp.float64).2) := by
    unfold receiveBroadcast
    have hBx2 : smp.paramid ∈ stB.cache := by simpa using hBx
    simp [hBx2]
  have hloop : broadcastLoop E smp aKey s.sessions s.trees
      = treeAppend E s.trees smp.paramid smp.timestamp smp.float64 :=
    broadcastLoop_unique E smp aKey bKey stB (Ne.symm hAB) hBx s.sessions s.trees
      hmemB hnd
      (fun p hp _ hpb => only_owner_holds s.sessions bKey stB hsw hmemB
        smp.paramid hBx p hp hpb)
  have h3 : writeBroadcastPhase E s aKey smp
      ⟨AkuStatus.success, false, NBTreeAppendResult.ok, true⟩
      = (⟨AkuStatus.success, false,
          (treeAppend E s.trees smp.paramid smp.timestamp smp.float64).1, false⟩,
         { s with trees := (treeAppend E s.trees smp.paramid smp.timestamp smp.float64).2 }) := by
    unfold writeBroadcastPhase broadcastSample
    simp [hloop]
  exact ⟨h1, h2, h3, by rw [h3]⟩

/-- Claim C7: with session B holding the id (so A's try phase resolves to
EBUSY and a pending broadcast), if B then closes before A's broadcast runs,
no live session other than A holds the id any more, broadcast_sample returns
FAIL_BAD_ID without touching the state, and the interpretation of that
outcome in the originating write returns AKU_ENOT_FOUND. -/
theorem write_busy_owner_closed_not_found (E : ExtBehavior) (s : SysState)
    (aKey bKey : Nat) (stA stB : SessionState) (smp : Sample)
    (hAB : aKey ≠ bKey)
    (hA : alGet s.sessions aKey = some stA)
    (hB : alGet s.sessions bKey = some stB)
    (hBx : stB.cache.contains smp.paramid = true)
    (htab : smp.paramid ∈ s.table)
    (halive : s.regAlive = true)
    (hinv : SysInv s) :
    writeTryPhase E s aKey smp
      = (⟨AkuStatus.success, false, NBTreeAppendResult.ok, true⟩, s) ∧
    (∀ p ∈ (closeSession s bKey).sessions,
      p.1 = aKey ∨ p.2.cache.contains smp.paramid = false) ∧
    broadcastSample E (closeSession s bKey) smp aKey
      = (NBTreeAppendResult.failBadId, closeSession s bKey) ∧
    writeInterpret E (closeSession s bKey) smp.paramid
        ⟨AkuStatus.success, false, NBTreeAppendResult.failBadId, false⟩
      = (WriteResult.ret AkuStatus.enotFound, closeSession s bKey) := by
  obtain ⟨hnd, hsw⟩ := hinv
  have hmemB := alGet_mem _ _ _ hB
  have h1 := writeTryPhase_busy E s aKey bKey stA stB smp hAB hA hB hBx htab halive
    ⟨hnd, hsw⟩
  have h2 : ∀ p ∈ (closeSession s bKey).sessions,
      p.1 = aKey ∨ p.2.cache.contains smp.paramid = false := by
    intro p hp
    obtain ⟨hps, hpb⟩ := List.mem_filter.1 hp
    right
    exact only_owner_holds s.sessions bKey stB hsw hmemB smp.paramid hBx p hps
      (by simpa using hpb)
  have hloop := broadcastLoop_no_owner E smp aKey (closeSession s bKey).sessions
    (closeSession s bKey).trees h2
  have h3 : broadcastSample E (closeSession s bKey) smp aKey
      = (NBTreeAppendResult.failBadId, closeSession s bKey) := by
    unfold broadcastSample
    simp [hloop]
  exact ⟨h1, h2, h3, rfl⟩

theorem sysInv_stPeerOwns : SysInv stPeerOwns := by
  refine ⟨by decide, fun id => ?_⟩
  by_cases h : id = 42 <;>
    simp [stPeerOwns, stFresh, initState, SeriesMatcher.empty, h]

/-- Witness for C6: session 2 owns id 42, session 1 writes it. -/
theorem write_busy_routes_via_broadcast_witness :
    ((1 : Nat) ≠ 2 ∧
      alGet stPeerOwns.sessions 1 = some ⟨SeriesMatcher.empty, []⟩ ∧
      alGet stPeerOwns.sessions 2 = some ⟨SeriesMatcher.empty, [42]⟩ ∧
      (SessionState.mk SeriesMatcher.empty [42]).cache.contains smp42.paramid = true ∧
      smp42.paramid ∈ stPeerOwns.table ∧
      stPeerOwns.regAlive = true ∧ SysInv stPeerOwns) ∧
    (writeTryPhase extOk stPeerOwns 1 smp42
        = (⟨AkuStatus.success, false, NBTreeAppendResult.ok, true⟩, stPeerOwns) ∧
      receiveBroadcast extOk ⟨SeriesMatcher.empty, [42]⟩ stPeerOwns.trees smp42
        = ((true,
            (treeAppend extOk stPeerOwns.trees smp42.paramid smp42.timestamp
              smp42.float64).1),
           (treeAppend extOk stPeerOwns.trees smp42.paramid smp42.timestamp
             smp42.float64).2) ∧
      writeBroadcastPhase extOk stPeerOwns 1 smp42
          ⟨AkuStatus.success, false, NBTreeAppendResult.ok, true⟩
        = (⟨AkuStatus.success, false,
            (treeAppend extOk stPeerOwns.trees smp42.paramid smp42.timestamp
              smp42.float64).1, false⟩,
           { stPeerOwns with trees :=
              (treeAppend extOk stPeerOwns.trees smp42.paramid smp42.timestamp
                smp42.float64).2 }) ∧
      (writeBroadcastPhase extOk stPeerOwns 1 smp42
          ⟨AkuStatus.success, false, NBTreeAppendResult.ok, true⟩).2.sessions
        = stPeerOwns.sessions) :=
  ⟨⟨by decide, rfl, rfl, by decide, by decide, rfl, sysInv_stPeerOwns⟩,
   write_busy_routes_via_broadcast extOk stPeerOwns 1 2 ⟨SeriesMatcher.empty, []⟩
     ⟨SeriesMatcher.empty, [42]⟩ smp42 (by decide) rfl rfl (by decide) (by decide)
     rfl sysInv_stPeerOwns⟩

/-- Witness for C7: session 2 owns id 42, session 1 sees EBUSY, session 2
closes, the broadcast finds nobody. -/
theorem write_busy_owner_closed_not_found_witness :
    ((1 : Nat) ≠ 2 ∧
      alGet stPeerOwns.sessions 1 = some ⟨SeriesMatcher.empty, []⟩ ∧
      alGet stPeerOwns.sessions 2 = some ⟨SeriesMatcher.empty, [42]⟩ ∧
      (SessionState.mk SeriesMatcher.empty [42]).cache.contains smp42.paramid = true ∧
      smp42.paramid ∈ stPeerOwns.table ∧
      stPeerOwns.regAlive = true ∧ SysInv stPeerOwns) ∧
    (writeTryPhase extOk stPeerOwns 1 smp42
        = (⟨AkuStatus.success, false, NBTreeAppendResult.ok, true⟩, stPeerOwns) ∧
      (∀ p ∈ (closeSession stPeerOwns 2).sessions,
        p.1 = 1 ∨ p.2.cache.contains smp42.paramid = false) ∧
      broadcastSample extOk (closeSession stPeerOwns 2) smp42 1
        = (NBTreeAppendResult.failBadId, closeSession stPeerOwns 2) ∧
      writeInterpret extOk (closeSession stPeerOwns 2) smp42.paramid
          ⟨AkuStatus.success, false, NBTreeAppendResult.failBadId, false⟩
        = (WriteResult.ret AkuStatus.enotFound, closeSession stPeerOwns 2)) :=
  ⟨⟨by decide, rfl, rfl, by decide, by decide, rfl, sysInv_stPeerOwns⟩,
   write_busy_owner_closed_not_found extOk stPeerOwns 1 2 ⟨SeriesMatcher.empty, []⟩
     ⟨SeriesMatcher.empty, [42]⟩ smp42 (by decide) rfl rfl (by decide) (by decide)
     rfl sysInv_stPeerOwns⟩
